import Mathlib

/-!
# Flight seat booking store (`main.go`)

A shallow embedding of the booking program: the SQLite database behind the
`*sql.DB` handle is an explicit `Store` value, every Go function takes the
store and returns the store after the call together with its Go results.

The SQL statements are embedded statement by statement:

* a table that has not been created makes every statement on it fail;
* `QueryRow(...).Scan(&x)` yields the first matching row in scan (rowid)
  order, `sql.ErrNoRows` when there is none, and leaves `x` untouched on error;
* `INSERT` appends a row whose id is drawn by the `AUTOINCREMENT` rule and is
  refused, leaving the store unchanged, when a declared constraint fails
  (`UNIQUE` on `flights.flight_no`, `CHECK (seat_no <= 500)` on `seats`, and
  the foreign key of `seats.flight_id` when the connection enforces foreign
  keys, which SQLite only does on request: the store carries that setting).

Row ids are mathematical integers: the 64-bit rowid space is never exhausted.
-/

namespace FlightBooking

/-! ## Data model -/

/-- The Go struct `Flight`. -/
structure Flight where
  ID : Int
  FlightNo : String
  Departure : String
  Destination : String
deriving DecidableEq

/-- A row of table `flights`. -/
structure FlightRow where
  id : Int
  flight_no : String
  departure : String
  destination : String
deriving DecidableEq

/-- A row of table `seats`; `booked` is the BOOLEAN column (0 or 1). -/
structure SeatRow where
  id : Int
  flight_id : Int
  seat_no : Int
  booked : Bool
deriving DecidableEq

/-- A created table: its rows in scan order and its `sqlite_sequence` entry
(the largest id `AUTOINCREMENT` has handed out, 0 at creation). -/
structure Table (α : Type) where
  rows : List α
  seq : Int
deriving DecidableEq

/-- The database behind the handle `db`: whether the connection enforces
foreign keys, and the two tables (`none` while a table is not created). -/
structure Store where
  foreignKeys : Bool
  flights : Option (Table FlightRow)
  seats : Option (Table SeatRow)
deriving DecidableEq

/-- Errors raised by the storage engine. -/
inductive SqlError where
  | noSuchTable (table : String)
  | uniqueFailed
  | checkFailed
  | foreignKeyFailed
deriving DecidableEq

/-- Go `error` values: `sql.ErrNoRows`, an error of the storage engine, or an
error made by `errors.New` / `fmt.Errorf` with the given message. -/
inductive Error where
  | ErrNoRows
  | sql (e : SqlError)
  | text (msg : String)
deriving DecidableEq

/-- The database file right after `sql.Open` created it: no table yet. -/
def emptyStore (fk : Bool) : Store :=
  { foreignKeys := fk, flights := none, seats := none }

/-! ## SQL statements -/

/-- Largest id among the rows, `none` for an empty table. -/
def maxRowid : List Int → Option Int
  | [] => none
  | x :: xs =>
    match maxRowid xs with
    | none => some x
    | some m => some (max x m)

/-- The id `INTEGER PRIMARY KEY AUTOINCREMENT` gives a new row: one more than
the largest id in the table (1 for an empty table), and at least one more than
the `sqlite_sequence` entry. -/
def nextRowid (ids : List Int) (seq : Int) : Int :=
  max (match maxRowid ids with
       | none => 1
       | some m => m + 1) (seq + 1)

/-- `Scan(&dest)`: on a row the destination takes the value, on an error it
keeps what it held. -/
def scan {α : Type} (r : Except Error α) (dest : α) : α × Option Error :=
  match r with
  | .ok v => (v, none)
  | .error e => (dest, some e)

/-- `CREATE TABLE IF NOT EXISTS flights (...)`. -/
def execCreateFlights (db : Store) : Store × Option Error :=
  match db.flights with
  | some _ => (db, none)
  | none => ({ db with flights := some { rows := [], seq := 0 } }, none)

/-- `CREATE TABLE IF NOT EXISTS seats (...)`. -/
def execCreateSeats (db : Store) : Store × Option Error :=
  match db.seats with
  | some _ => (db, none)
  | none => ({ db with seats := some { rows := [], seq := 0 } }, none)

/-- `SELECT id FROM flights WHERE flight_no = ?`. -/
def queryFlightId (db : Store) (flightNo : String) : Except Error Int :=
  match db.flights with
  | none => .error (.sql (.noSuchTable "flights"))
  | some t =>
    match t.rows.find? (fun r => decide (r.flight_no = flightNo)) with
    | none => .error .ErrNoRows
    | some r => .ok r.id

/-- `UPDATE flights SET departure = ?, destination = ? WHERE id = ?`. -/
def execUpdateFlight (db : Store) (departure destination : String) (id : Int) :
    Store × Option Error :=
  match db.flights with
  | none => (db, some (.sql (.noSuchTable "flights")))
  | some t =>
    ({ db with flights := some { t with rows := t.rows.map (fun r =>
        if r.id = id then { r with departure := departure, destination := destination }
        else r) } }, none)

/-- `INSERT INTO flights (flight_no, departure, destination) VALUES (?, ?, ?)`:
refused when a row already holds the flight number (`flight_no TEXT UNIQUE`). -/
def execInsertFlight (db : Store) (flightNo departure destination : String) :
    Store × Option Error :=
  match db.flights with
  | none => (db, some (.sql (.noSuchTable "flights")))
  | some t =>
    if t.rows.any (fun r => decide (r.flight_no = flightNo)) then
      (db, some (.sql .uniqueFailed))
    else
      let id := nextRowid (t.rows.map (fun r => r.id)) t.seq
      let row : FlightRow :=
        { id := id, flight_no := flightNo, departure := departure, destination := destination }
      ({ db with flights := some { rows := t.rows ++ [row], seq := id } }, none)

/-- `SELECT COUNT(*) FROM seats WHERE flight_id = ? AND booked = 1`. -/
def queryBookedCount (db : Store) (flightID : Int) : Except Error Nat :=
  match db.seats with
  | none => .error (.sql (.noSuchTable "seats"))
  | some t =>
    .ok (t.rows.filter (fun r => decide (r.flight_id = flightID) && r.booked)).length

/-- `SELECT booked FROM seats WHERE flight_id = ? AND seat_no = ? AND booked = 1`. -/
def queryBookedSeat (db : Store) (flightID seatNo : Int) : Except Error Bool :=
  match db.seats with
  | none => .error (.sql (.noSuchTable "seats"))
  | some t =>
    match t.rows.find? (fun r =>
        decide (r.flight_id = flightID) && decide (r.seat_no = seatNo) && r.booked) with
    | none => .error .ErrNoRows
    | some r => .ok r.booked

/-- `SELECT booked FROM seats WHERE flight_id = ? AND seat_no = ?`. -/
def querySeat (db : Store) (flightID seatNo : Int) : Except Error Bool :=
  match db.seats with
  | none => .error (.sql (.noSuchTable "seats"))
  | some t =>
    match t.rows.find? (fun r =>
        decide (r.flight_id = flightID) && decide (r.seat_no = seatNo)) with
    | none => .error .ErrNoRows
    | some r => .ok r.booked

/-- The check of `FOREIGN KEY (flight_id) REFERENCES flights(id)` for a new
seat row, made only when the connection enforces foreign keys. -/
def foreignKeyCheck (db : Store) (flightID : Int) : Option SqlError :=
  if db.foreignKeys then
    match db.flights with
    | none => some (.noSuchTable "flights")
    | some ft =>
      if ft.rows.any (fun r => decide (r.id = flightID)) then none
      else some .foreignKeyFailed
  else none

/-- `INSERT INTO seats (flight_id, seat_no, booked) VALUES (?, ?, 1)`: refused
when `CHECK (seat_no <= 500)` or the foreign key fails. -/
def execInsertSeat (db : Store) (flightID seatNo : Int) : Store × Option Error :=
  match db.seats with
  | none => (db, some (.sql (.noSuchTable "seats")))
  | some t =>
    if ¬ seatNo ≤ 500 then (db, some (.sql .checkFailed))
    else
      match foreignKeyCheck db flightID with
      | some e => (db, some (.sql e))
      | none =>
        let id := nextRowid (t.rows.map (fun r => r.id)) t.seq
        let row : SeatRow :=
          { id := id, flight_id := flightID, seat_no := seatNo, booked := true }
        ({ db with seats := some { rows := t.rows ++ [row], seq := id } }, none)

/-! ## The functions of `main.go` -/

/-- Go `createFlightsTable`. -/
def createFlightsTable (db : Store) : Store × Option Error :=
  execCreateFlights db

/-- Go `createSeatsTable`. -/
def createSeatsTable (db : Store) : Store × Option Error :=
  execCreateSeats db

/-- Go `createFlight`: look the flight number up, update the row found, insert
a row when none was found. -/
def createFlight (db : Store) (flight : Flight) : Store × Option Error :=
  let r := scan (queryFlightId db flight.FlightNo) (0 : Int)
  let existingID := r.1
  let err := r.2
  if err ≠ none ∧ err ≠ some .ErrNoRows then (db, err)
  else if existingID ≠ 0 then
    execUpdateFlight db flight.Departure flight.Destination existingID
  else
    execInsertFlight db flight.FlightNo flight.Departure flight.Destination

/-- Go `bookSeat`: capacity check, duplicate check, insert. -/
def bookSeat (db : Store) (flightID seatNo : Int) : Store × Option Error :=
  let r := scan (queryBookedCount db flightID) (0 : Nat)
  let bookedSeats := r.1
  let err := r.2
  if err ≠ none then (db, err)
  else if bookedSeats ≥ 500 then
    (db, some (.text "seat limit reached for this flight"))
  else
    let r2 := scan (queryBookedSeat db flightID seatNo) false
    let booked := r2.1
    let err2 := r2.2
    if err2 ≠ none ∧ err2 ≠ some .ErrNoRows then (db, err2)
    else if booked then
      (db, some (.text ("seat " ++ toString seatNo ++ " is already booked")))
    else
      execInsertSeat db flightID seatNo

/-- Go `checkSeatStatus`. -/
def checkSeatStatus (db : Store) (flightID seatNo : Int) : Bool × Option Error :=
  let r := scan (querySeat db flightID seatNo) false
  let booked := r.1
  let err := r.2
  if err ≠ none then
    if err = some .ErrNoRows then
      (false, some (.text ("seat " ++ toString seatNo ++ " is not available")))
    else (false, err)
  else (booked, none)

/-! ## Sequences of calls -/

/-- A call of one of the four store-changing functions. -/
inductive Op where
  | createFlightsTable
  | createSeatsTable
  | createFlight (flight : Flight)
  | bookSeat (flightID seatNo : Int)
deriving DecidableEq

/-- The store and the error a call returns. -/
def Op.run (db : Store) : Op → Store × Option Error
  | .createFlightsTable => FlightBooking.createFlightsTable db
  | .createSeatsTable => FlightBooking.createSeatsTable db
  | .createFlight flight => FlightBooking.createFlight db flight
  | .bookSeat flightID seatNo => FlightBooking.bookSeat db flightID seatNo

/-- The store after a sequence of calls made one after the other. -/
def runOps (db : Store) : List Op → Store
  | [] => db
  | op :: ops => runOps (op.run db).1 ops

/-- Stores reachable from the empty store by a sequence of calls. -/
def Reachable (db : Store) : Prop :=
  ∃ (fk : Bool) (ops : List Op), runOps (emptyStore fk) ops = db

/-! ## Observations on a store -/

/-- Rows of table `seats` (none while the table is not created). -/
def seatRows (db : Store) : List SeatRow :=
  match db.seats with
  | none => []
  | some t => t.rows

/-- Rows of table `flights` (none while the table is not created). -/
def flightRows (db : Store) : List FlightRow :=
  match db.flights with
  | none => []
  | some t => t.rows

/-- Booked seat rows of a flight. -/
def bookedRows (db : Store) (flightID : Int) : List SeatRow :=
  (seatRows db).filter (fun r => decide (r.flight_id = flightID) && r.booked)

/-- Booked rows of one (flight, seat) pair. -/
def bookedRowsOf (db : Store) (flightID seatNo : Int) : List SeatRow :=
  (seatRows db).filter (fun r =>
    decide (r.flight_id = flightID) && decide (r.seat_no = seatNo) && r.booked)

/-- Flight rows holding a flight number. -/
def flightRowsOf (db : Store) (flightNo : String) : List FlightRow :=
  (flightRows db).filter (fun r => decide (r.flight_no = flightNo))

/-! ## Invariants -/

/-- At most 500 booked rows per flight, at most one booked row per
(flight, seat) pair. -/
def SeatInvariant (db : Store) : Prop :=
  (∀ f : Int, (bookedRows db f).length ≤ 500) ∧
  (∀ f s : Int, (bookedRowsOf db f s).length ≤ 1)

/-- Flight ids are positive and pairwise distinct, flight numbers are pairwise
distinct. -/
def FlightsOk (rows : List FlightRow) : Prop :=
  (∀ r ∈ rows, 1 ≤ r.id) ∧ (rows.map (fun r => r.id)).Nodup ∧
  (rows.map (fun r => r.flight_no)).Nodup

/-- The rows after `UPDATE flights SET departure = b, destination = c WHERE id = id`. -/
def updatedRows (rows : List FlightRow) (b c : String) (id : Int) : List FlightRow :=
  rows.map (fun r => if r.id = id then { r with departure := b, destination := c } else r)

/-! ## Concrete stores -/

/-- The demo flight of `main`. -/
def demoFlight : Flight :=
  { ID := 0, FlightNo := "ABC123", Departure := "New York", Destination := "Los Angeles" }

/-- The calls `main` makes before it books a seat. -/
def setupOps : List Op :=
  [.createFlightsTable, .createSeatsTable, .createFlight demoFlight]

/-- The store after the setup of `main`: both tables, the demo flight. -/
def demoStore (fk : Bool) : Store :=
  runOps (emptyStore fk) setupOps

/-- Bookings of seats 1 to `n` on flight 1. -/
def bookRange (n : Nat) : List Op :=
  List.map (fun (i : Nat) => Op.bookSeat 1 ((i : Int) + 1)) (List.range n)

/-- The demo store after seats 1 to `n` of flight 1 were booked. -/
def bookedStore (n : Nat) : Store :=
  runOps (emptyStore false) (setupOps ++ bookRange n)

/-! ## What each function computes -/

theorem bookedRows_some {db : Store} {t : Table SeatRow} (h : db.seats = some t) (f : Int) :
    bookedRows db f = t.rows.filter (fun r => decide (r.flight_id = f) && r.booked) := by
  simp [bookedRows, seatRows, h]

theorem bookedRowsOf_some {db : Store} {t : Table SeatRow} (h : db.seats = some t) (f s : Int) :
    bookedRowsOf db f s = t.rows.filter (fun r =>
      decide (r.flight_id = f) && decide (r.seat_no = s) && r.booked) := by
  simp [bookedRowsOf, seatRows, h]

/-- The three outcomes of `bookSeat` before the insert, on a store whose seats
table exists. -/
theorem bookSeat_some {db : Store} {t : Table SeatRow} (h : db.seats = some t) (f s : Int) :
    bookSeat db f s =
      if 500 ≤ (bookedRows db f).length then
        (db, some (.text "seat limit reached for this flight"))
      else if bookedRowsOf db f s ≠ [] then
        (db, some (.text ("seat " ++ toString s ++ " is already booked")))
      else execInsertSeat db f s := by
  rw [bookedRows_some h, bookedRowsOf_some h]
  unfold bookSeat
  simp only [queryBookedCount, queryBookedSeat, h, scan]
  by_cases hc : 500 ≤ (t.rows.filter (fun r => decide (r.flight_id = f) && r.booked)).length
  · simp [hc]
  · simp only [hc, if_false]
    cases hf : t.rows.find? (fun r =>
        decide (r.flight_id = f) && decide (r.seat_no = s) && r.booked) with
    | none =>
      have : t.rows.filter (fun r =>
          decide (r.flight_id = f) && decide (r.seat_no = s) && r.booked) = [] := by
        rw [List.filter_eq_nil_iff]
        intro a ha
        exact List.find?_eq_none.mp hf a ha
      simp [this, hc]
    | some r =>
      have hr := List.find?_some hf
      have hm := List.mem_of_find?_eq_some hf
      have : t.rows.filter (fun r =>
          decide (r.flight_id = f) && decide (r.seat_no = s) && r.booked) ≠ [] := by
        intro hnil
        rw [List.filter_eq_nil_iff] at hnil
        exact hnil r hm hr
      have hb : r.booked = true := by simp at hr; exact hr.2
      simp [this, hb, hc]

theorem bookSeat_none {db : Store} (h : db.seats = none) (f s : Int) :
    bookSeat db f s = (db, some (.sql (.noSuchTable "seats"))) := by
  unfold bookSeat
  simp [queryBookedCount, h, scan]

/-- The insert of `bookSeat` on a store whose seats table exists. -/
theorem execInsertSeat_some {db : Store} {t : Table SeatRow} (h : db.seats = some t)
    (f s : Int) :
    execInsertSeat db f s =
      if 500 < s then (db, some (.sql .checkFailed))
      else match foreignKeyCheck db f with
        | some e => (db, some (.sql e))
        | none =>
          (Store.mk db.foreignKeys db.flights (some (Table.mk
              (t.rows ++ [⟨nextRowid (t.rows.map (fun r => r.id)) t.seq, f, s, true⟩])
              (nextRowid (t.rows.map (fun r => r.id)) t.seq))), none) := by
  unfold execInsertSeat
  simp only [h, not_le]

theorem checkSeatStatus_some {db : Store} {t : Table SeatRow} (h : db.seats = some t)
    (f s : Int) :
    checkSeatStatus db f s =
      match t.rows.find? (fun r => decide (r.flight_id = f) && decide (r.seat_no = s)) with
      | none => (false, some (.text ("seat " ++ toString s ++ " is not available")))
      | some r => (r.booked, none) := by
  unfold checkSeatStatus
  simp only [querySeat, h]
  cases t.rows.find? (fun r => decide (r.flight_id = f) && decide (r.seat_no = s)) <;>
    simp [scan]

theorem checkSeatStatus_none {db : Store} (h : db.seats = none) (f s : Int) :
    checkSeatStatus db f s = (false, some (.sql (.noSuchTable "seats"))) := by
  unfold checkSeatStatus
  simp [querySeat, h, scan]

theorem createFlight_some {db : Store} {t : Table FlightRow} (h : db.flights = some t)
    (flight : Flight) :
    createFlight db flight =
      match t.rows.find? (fun r => decide (r.flight_no = flight.FlightNo)) with
      | none => execInsertFlight db flight.FlightNo flight.Departure flight.Destination
      | some r =>
        if r.id ≠ 0 then execUpdateFlight db flight.Departure flight.Destination r.id
        else execInsertFlight db flight.FlightNo flight.Departure flight.Destination := by
  unfold createFlight
  simp only [queryFlightId, h]
  cases t.rows.find? (fun r => decide (r.flight_no = flight.FlightNo)) <;>
    simp [scan]

theorem createFlight_none {db : Store} (h : db.flights = none) (flight : Flight) :
    createFlight db flight = (db, some (.sql (.noSuchTable "flights"))) := by
  unfold createFlight
  simp [queryFlightId, h, scan]

/-! ## Frame facts -/

theorem execInsertFlight_seats (db : Store) (a b c : String) :
    (execInsertFlight db a b c).1.seats = db.seats ∧
    (execInsertFlight db a b c).1.foreignKeys = db.foreignKeys := by
  unfold execInsertFlight
  cases db.flights with
  | none => simp
  | some t => by_cases hu : t.rows.any (fun r => decide (r.flight_no = a)) <;> simp [hu]

theorem execUpdateFlight_seats (db : Store) (b c : String) (id : Int) :
    (execUpdateFlight db b c id).1.seats = db.seats ∧
    (execUpdateFlight db b c id).1.foreignKeys = db.foreignKeys := by
  unfold execUpdateFlight
  cases db.flights <;> simp

theorem createFlight_seats (db : Store) (flight : Flight) :
    (createFlight db flight).1.seats = db.seats ∧
    (createFlight db flight).1.foreignKeys = db.foreignKeys := by
  cases h : db.flights with
  | none => rw [createFlight_none h]; simp
  | some t =>
    rw [createFlight_some h]
    cases t.rows.find? (fun r => decide (r.flight_no = flight.FlightNo)) with
    | none => exact execInsertFlight_seats db _ _ _
    | some r =>
      by_cases hr : r.id ≠ 0
      · simp only [if_pos hr]; exact execUpdateFlight_seats db _ _ _
      · simp only [if_neg hr]; exact execInsertFlight_seats db _ _ _

theorem execInsertSeat_flights (db : Store) (f s : Int) :
    (execInsertSeat db f s).1.flights = db.flights ∧
    (execInsertSeat db f s).1.foreignKeys = db.foreignKeys := by
  cases h : db.seats with
  | none => simp [execInsertSeat, h]
  | some t =>
    rw [execInsertSeat_some h]
    by_cases hs : 500 < s
    · simp [hs]
    · cases hk : foreignKeyCheck db f <;> simp [hs]

theorem bookSeat_flights (db : Store) (f s : Int) :
    (bookSeat db f s).1.flights = db.flights ∧
    (bookSeat db f s).1.foreignKeys = db.foreignKeys := by
  cases h : db.seats with
  | none => rw [bookSeat_none h]; simp
  | some t =>
    rw [bookSeat_some h]
    by_cases hc : 500 ≤ (bookedRows db f).length
    · simp [hc]
    · by_cases hd : bookedRowsOf db f s ≠ []
      · simp [hc, hd]
      · rw [if_neg hc, if_neg hd]; exact execInsertSeat_flights db f s

/-! ## Outcomes of a booking -/

/-- A call of `bookSeat` either returns an error and the store it was given, or
passed the capacity check, the duplicate check and the constraints of the
insert, and returns the store with one more seat row. -/
theorem bookSeat_outcome (db : Store) (f s : Int) :
    (∃ e, bookSeat db f s = (db, some e)) ∨
    (∃ t id, db.seats = some t ∧ (bookedRows db f).length < 500 ∧
      bookedRowsOf db f s = [] ∧ s ≤ 500 ∧ foreignKeyCheck db f = none ∧
      bookSeat db f s =
        (Store.mk db.foreignKeys db.flights
          (some (Table.mk (t.rows ++ [⟨id, f, s, true⟩]) id)), none)) := by
  cases h : db.seats with
  | none => left; exact ⟨_, bookSeat_none h f s⟩
  | some t =>
    rw [bookSeat_some h]
    by_cases hc : 500 ≤ (bookedRows db f).length
    · left; simp [hc]
    · by_cases hd : bookedRowsOf db f s ≠ []
      · left; simp [hc, hd]
      · simp only [if_neg hc, if_neg hd]
        rw [execInsertSeat_some h]
        by_cases hs : 500 < s
        · left; simp [hs]
        · cases hk : foreignKeyCheck db f with
          | some e => left; simp [hs]
          | none =>
            right
            refine ⟨t, nextRowid (t.rows.map (fun r => r.id)) t.seq, rfl, by omega, ?_, by omega,
              rfl, ?_⟩
            · simpa using hd
            · simp [hs]

/-- Seat rows after any call: unchanged, or one booked row more, added by a
`bookSeat` that passed its checks. -/
theorem seatRows_step (db : Store) (op : Op) :
    seatRows (op.run db).1 = seatRows db ∨
    (∃ f s id, op = .bookSeat f s ∧
      seatRows (op.run db).1 = seatRows db ++ [⟨id, f, s, true⟩] ∧
      (bookedRows db f).length < 500 ∧ bookedRowsOf db f s = [] ∧ s ≤ 500) := by
  cases op with
  | createFlightsTable =>
    left
    simp only [Op.run, createFlightsTable, execCreateFlights]
    cases db.flights <;> simp [seatRows]
  | createSeatsTable =>
    left
    simp only [Op.run, createSeatsTable, execCreateSeats]
    cases h : db.seats <;> simp [seatRows, h]
  | createFlight flight =>
    left
    simp only [Op.run, seatRows, (createFlight_seats db flight).1]
  | bookSeat f s =>
    rcases bookSeat_outcome db f s with ⟨e, he⟩ | ⟨t, id, ht, hc, hd, hs, _, hb⟩
    · left; simp only [Op.run, he]
    · right
      refine ⟨f, s, id, rfl, ?_, hc, hd, hs⟩
      simp only [Op.run, hb, seatRows, ht]

/-- Induction over the calls that lead to a reachable store. -/
theorem reachable_induction {P : Store → Prop} (h0 : ∀ fk, P (emptyStore fk))
    (hstep : ∀ db op, P db → P (Op.run db op).1) :
    ∀ db, Reachable db → P db := by
  have key : ∀ (ops : List Op) (db : Store), P db → P (runOps db ops) := by
    intro ops
    induction ops with
    | nil => intro db hdb; exact hdb
    | cons op ops ih => intro db hdb; exact ih _ (hstep db op hdb)
  rintro db ⟨fk, ops, rfl⟩
  exact key ops _ (h0 fk)

theorem runOps_append (db : Store) (ops1 ops2 : List Op) :
    runOps db (ops1 ++ ops2) = runOps (runOps db ops1) ops2 := by
  induction ops1 generalizing db with
  | nil => rfl
  | cons op ops ih => exact ih _

/-- A call on a reachable store leads to a reachable store. -/
theorem reachable_step {db : Store} (h : Reachable db) (op : Op) :
    Reachable (Op.run db op).1 := by
  obtain ⟨fk, ops, rfl⟩ := h
  exact ⟨fk, ops ++ [op], by rw [runOps_append]; rfl⟩

/-! ## Invariants of the seats table -/

theorem seatInvariant_step (db : Store) (op : Op) (h : SeatInvariant db) :
    SeatInvariant (Op.run db op).1 := by
  rcases seatRows_step db op with he | ⟨f, s, id, _, he, hc, hd, _⟩
  · simpa only [SeatInvariant, bookedRows, bookedRowsOf, he] using h
  · constructor
    · intro g
      have hg := h.1 g
      simp only [bookedRows, he, List.filter_append, List.length_append] at hg hc ⊢
      by_cases hfg : f = g
      · subst hfg; simp; omega
      · simp [hfg]; omega
    · intro g u
      have hg := h.2 g u
      simp only [bookedRowsOf, he, List.filter_append, List.length_append] at hg hd ⊢
      by_cases hfg : f = g ∧ s = u
      · obtain ⟨rfl, rfl⟩ := hfg; simp [hd]
      · have : (decide (f = g) && decide (s = u)) = false := by simpa using hfg
        simp [this]; omega

theorem seatInvariant_empty (fk : Bool) : SeatInvariant (emptyStore fk) := by
  simp [SeatInvariant, bookedRows, bookedRowsOf, seatRows, emptyStore]

/-- Every seat row of a reachable store is booked and has a seat number of at
most 500. -/
theorem reachable_seatRows {db : Store} (h : Reachable db) :
    ∀ r ∈ seatRows db, r.booked = true ∧ r.seat_no ≤ 500 := by
  refine reachable_induction (P := fun db => ∀ r ∈ seatRows db, r.booked = true ∧ r.seat_no ≤ 500)
    ?_ ?_ db h
  · intro fk r hr
    simp [seatRows, emptyStore] at hr
  · intro db op ih r hr
    rcases seatRows_step db op with he | ⟨f, s, id, _, he, _, _, hs⟩
    · rw [he] at hr; exact ih r hr
    · rw [he, List.mem_append] at hr
      rcases hr with hr | hr
      · exact ih r hr
      · simp only [List.mem_singleton] at hr
        subst hr
        exact ⟨rfl, hs⟩

/-! ## Invariants of the flights table -/

theorem maxRowid_ge {ids : List Int} {m : Int} (h : maxRowid ids = some m) :
    ∀ x ∈ ids, x ≤ m := by
  induction ids generalizing m with
  | nil => simp [maxRowid] at h
  | cons y ys ih =>
    intro x hx
    simp only [maxRowid] at h
    cases hm : maxRowid ys with
    | none =>
      rw [hm] at h
      cases ys with
      | nil =>
        simp only [Option.some.injEq] at h
        simp only [List.mem_singleton] at hx
        omega
      | cons z zs =>
        simp only [maxRowid] at hm
        cases hz : maxRowid zs <;> simp [hz] at hm
    | some k =>
      rw [hm] at h
      simp only [Option.some.injEq] at h
      rcases List.mem_cons.mp hx with hx | hx
      · subst hx; omega
      · have := ih hm x hx
        omega

theorem maxRowid_none {ids : List Int} (h : maxRowid ids = none) : ids = [] := by
  cases ids with
  | nil => rfl
  | cons y ys =>
    simp only [maxRowid] at h
    cases hm : maxRowid ys <;> simp [hm] at h

theorem maxRowid_mem {ids : List Int} {m : Int} (h : maxRowid ids = some m) : m ∈ ids := by
  induction ids generalizing m with
  | nil => simp [maxRowid] at h
  | cons y ys ih =>
    simp only [maxRowid] at h
    cases hm : maxRowid ys with
    | none =>
      rw [hm] at h
      simp only [Option.some.injEq] at h
      simp [h]
    | some k =>
      rw [hm] at h
      simp only [Option.some.injEq] at h
      have hk := ih hm
      rcases max_choice y k with hc | hc
      · rw [hc] at h; simp [h]
      · rw [hc] at h; subst h; exact List.mem_cons_of_mem _ hk

/-- The id of a new row is larger than every id in the table. -/
theorem nextRowid_gt (ids : List Int) (seq : Int) : ∀ x ∈ ids, x < nextRowid ids seq := by
  intro x hx
  unfold nextRowid
  cases hm : maxRowid ids with
  | none => rw [maxRowid_none hm] at hx; simp at hx
  | some m =>
    have := maxRowid_ge hm x hx
    simp only
    omega

/-- The id of a new row is positive when the ids in the table are. -/
theorem nextRowid_pos (ids : List Int) (seq : Int) (h : ∀ x ∈ ids, 1 ≤ x) :
    1 ≤ nextRowid ids seq := by
  unfold nextRowid
  cases hm : maxRowid ids with
  | none => simp only; omega
  | some m =>
    have := h m (maxRowid_mem hm)
    simp only
    omega

theorem updatedRows_ids (rows : List FlightRow) (b c : String) (id : Int) :
    (updatedRows rows b c id).map (fun r => r.id) = rows.map (fun r => r.id) := by
  simp only [updatedRows, List.map_map]
  apply List.map_congr_left
  intro r _
  by_cases h : r.id = id <;> simp [h]

theorem updatedRows_flightNos (rows : List FlightRow) (b c : String) (id : Int) :
    (updatedRows rows b c id).map (fun r => r.flight_no) = rows.map (fun r => r.flight_no) := by
  simp only [updatedRows, List.map_map]
  apply List.map_congr_left
  intro r _
  by_cases h : r.id = id <;> simp [h]

/-- Flight rows after `createFlight`, on a store whose flight rows satisfy the
invariant: a row appended for a new flight number, the row of a known flight
number updated in place. -/
theorem createFlight_rows {db : Store} {t : Table FlightRow} (h : db.flights = some t)
    (hok : FlightsOk t.rows) (flight : Flight) :
    (createFlight db flight).2 = none ∧
    (createFlight db flight).1.seats = db.seats ∧
    ((∀ r ∈ t.rows, r.flight_no ≠ flight.FlightNo) →
      flightRows (createFlight db flight).1 =
        t.rows ++ [⟨nextRowid (t.rows.map (fun r => r.id)) t.seq, flight.FlightNo,
                    flight.Departure, flight.Destination⟩]) ∧
    (∀ r ∈ t.rows, r.flight_no = flight.FlightNo →
      flightRows (createFlight db flight).1 =
        updatedRows t.rows flight.Departure flight.Destination r.id) := by
  refine ⟨?_, (createFlight_seats db flight).1, ?_, ?_⟩
  · rw [createFlight_some h]
    cases hf : t.rows.find? (fun r => decide (r.flight_no = flight.FlightNo)) with
    | none =>
      have hn := List.find?_eq_none.mp hf
      have : t.rows.any (fun r => decide (r.flight_no = flight.FlightNo)) = false := by
        rw [List.any_eq_false]; exact hn
      simp [execInsertFlight, h, this]
    | some r =>
      have hr := hok.1 r (List.mem_of_find?_eq_some hf)
      have hne : r.id ≠ 0 := by omega
      simp [hne, execUpdateFlight, h]
  · intro hnone
    rw [createFlight_some h]
    have hf : t.rows.find? (fun r => decide (r.flight_no = flight.FlightNo)) = none := by
      rw [List.find?_eq_none]; intro r hr; simpa using hnone r hr
    have : t.rows.any (fun r => decide (r.flight_no = flight.FlightNo)) = false := by
      rw [List.any_eq_false]; intro r hr; simpa using hnone r hr
    simp [hf, execInsertFlight, h, this, flightRows]
  · intro r hr hno
    rw [createFlight_some h]
    cases hf : t.rows.find? (fun r => decide (r.flight_no = flight.FlightNo)) with
    | none =>
      have := List.find?_eq_none.mp hf r hr
      simp [hno] at this
    | some r2 =>
      have hr2 := List.mem_of_find?_eq_some hf
      have hno2 : r2.flight_no = flight.FlightNo := by simpa using List.find?_some hf
      have heq : r2 = r :=
        List.inj_on_of_nodup_map hok.2.2 hr2 hr (hno2.trans hno.symm)
      subst heq
      have hne : r2.id ≠ 0 := by have := hok.1 r2 hr2; omega
      simp [hne, execUpdateFlight, h, flightRows, updatedRows]

theorem flightsOk_of_ids {rows rows2 : List FlightRow} (hok : FlightsOk rows)
    (hid : rows2.map (fun r => r.id) = rows.map (fun r => r.id))
    (hno : rows2.map (fun r => r.flight_no) = rows.map (fun r => r.flight_no)) :
    FlightsOk rows2 := by
  refine ⟨?_, by rw [hid]; exact hok.2.1, by rw [hno]; exact hok.2.2⟩
  intro r hr
  have : r.id ∈ rows.map (fun r => r.id) := by
    rw [← hid]; exact List.mem_map_of_mem (fun r => r.id) hr
  obtain ⟨r0, hr0, he⟩ := List.mem_map.mp this
  rw [← he]; exact hok.1 r0 hr0

theorem flightsOk_append {rows : List FlightRow} (hok : FlightsOk rows) (seq : Int)
    (a b c : String) (hnew : ∀ r ∈ rows, r.flight_no ≠ a) :
    FlightsOk (rows ++ [⟨nextRowid (rows.map (fun r => r.id)) seq, a, b, c⟩]) := by
  refine ⟨?_, ?_, ?_⟩
  · intro r hr
    rcases List.mem_append.mp hr with hr | hr
    · exact hok.1 r hr
    · simp only [List.mem_singleton] at hr
      subst hr
      apply nextRowid_pos
      intro x hx
      obtain ⟨r0, hr0, he⟩ := List.mem_map.mp hx
      rw [← he]; exact hok.1 r0 hr0
  · rw [List.map_append, List.nodup_append]
    refine ⟨hok.2.1, by simp, ?_⟩
    intro x hx hx2
    simp only [List.map_cons, List.map_nil, List.mem_singleton] at hx2
    have := nextRowid_gt (rows.map (fun r => r.id)) seq x hx
    omega
  · rw [List.map_append, List.nodup_append]
    refine ⟨hok.2.2, by simp, ?_⟩
    intro x hx hx2
    simp only [List.map_cons, List.map_nil, List.mem_singleton] at hx2
    obtain ⟨r0, hr0, he⟩ := List.mem_map.mp hx
    exact hnew r0 hr0 (he.trans hx2)

theorem flightsOk_step (db : Store) (op : Op) (hok : FlightsOk (flightRows db)) :
    FlightsOk (flightRows (Op.run db op).1) := by
  cases op with
  | createFlightsTable =>
    simp only [Op.run, createFlightsTable, execCreateFlights]
    cases h : db.flights with
    | none => simp [flightRows, FlightsOk]
    | some t => simpa [flightRows, h] using hok
  | createSeatsTable =>
    simp only [Op.run, createSeatsTable, execCreateSeats]
    cases h : db.seats <;> simpa [flightRows] using hok
  | bookSeat f s =>
    simpa only [Op.run, flightRows, (bookSeat_flights db f s).1] using hok
  | createFlight flight =>
    simp only [Op.run]
    cases h : db.flights with
    | none => rw [createFlight_none h]; exact hok
    | some t =>
      have hok2 : FlightsOk t.rows := by simpa [flightRows, h] using hok
      obtain ⟨_, _, hins, hupd⟩ := createFlight_rows h hok2 flight
      by_cases hex : ∃ r ∈ t.rows, r.flight_no = flight.FlightNo
      · obtain ⟨r, hr, hno⟩ := hex
        rw [hupd r hr hno]
        exact flightsOk_of_ids hok2 (updatedRows_ids _ _ _ _) (updatedRows_flightNos _ _ _ _)
      · have hnone : ∀ r ∈ t.rows, r.flight_no ≠ flight.FlightNo := by
          intro r hr hno; exact hex ⟨r, hr, hno⟩
        rw [hins hnone]
        exact flightsOk_append hok2 t.seq _ _ _ hnone

/-- Flight rows of a reachable store satisfy the invariant. -/
theorem reachable_flightsOk {db : Store} (h : Reachable db) : FlightsOk (flightRows db) := by
  refine reachable_induction (P := fun db => FlightsOk (flightRows db)) ?_ ?_ db h
  · intro fk; simp [flightRows, emptyStore, FlightsOk]
  · intro db op ih; exact flightsOk_step db op ih

/-! ## Successful bookings -/

/-- A status check finds the seat booked when the pair has a row and every row
is booked. -/
theorem checkSeatStatus_booked {db : Store} {t : Table SeatRow} (h : db.seats = some t)
    (f s : Int) (hall : ∀ r ∈ t.rows, r.booked = true)
    (hex : ∃ r ∈ t.rows, r.flight_id = f ∧ r.seat_no = s) :
    checkSeatStatus db f s = (true, none) := by
  rw [checkSeatStatus_some h]
  cases hf : t.rows.find? (fun r => decide (r.flight_id = f) && decide (r.seat_no = s)) with
  | none =>
    obtain ⟨r, hr, h1, h2⟩ := hex
    have := List.find?_eq_none.mp hf r hr
    simp [h1, h2] at this
  | some r =>
    have := hall r (List.mem_of_find?_eq_some hf)
    simp [this]

/-- A booking that passes the capacity check, the duplicate check and the
constraints of the insert appends its row. -/
theorem bookSeat_success {db : Store} {t : Table SeatRow} (h : db.seats = some t) (f s : Int)
    (hc : (bookedRows db f).length < 500) (hd : bookedRowsOf db f s = []) (hs : s ≤ 500)
    (hk : foreignKeyCheck db f = none) :
    bookSeat db f s =
      (Store.mk db.foreignKeys db.flights (some (Table.mk
        (t.rows ++ [⟨nextRowid (t.rows.map (fun r => r.id)) t.seq, f, s, true⟩])
        (nextRowid (t.rows.map (fun r => r.id)) t.seq))), none) := by
  rw [bookSeat_some h, if_neg (by omega), if_neg (by simp [hd]), execInsertSeat_some h,
    if_neg (by omega), hk]

theorem foreignKeyCheck_none {db : Store} {f : Int}
    (h : db.foreignKeys = false ∨ ∃ r ∈ flightRows db, r.id = f) :
    foreignKeyCheck db f = none := by
  unfold foreignKeyCheck
  rcases h with h | ⟨r, hr, hid⟩
  · simp [h]
  · cases hf : db.flights with
    | none => simp [flightRows, hf] at hr
    | some ft =>
      simp only [flightRows, hf] at hr
      have : ft.rows.any (fun r => decide (r.id = f)) = true := by
        rw [List.any_eq_true]; exact ⟨r, hr, by simpa using hid⟩
      simp [this]

theorem bookedStore_reachable (n : Nat) : Reachable (bookedStore n) :=
  ⟨false, setupOps ++ bookRange n, rfl⟩

theorem bookedStore_succ (n : Nat) :
    bookedStore (n + 1) = (bookSeat (bookedStore n) 1 ((n : Int) + 1)).1 := by
  simp only [bookedStore, bookRange, List.range_succ, List.map_append, List.map_cons,
    List.map_nil, ← List.append_assoc]
  rw [runOps_append]
  rfl

/-- Up to capacity, `bookedStore n` holds exactly the seats 1 to `n` of flight 1. -/
theorem bookedStore_rows (n : Nat) (hn : n ≤ 500) :
    (bookedStore n).foreignKeys = false ∧ (bookedStore n).seats ≠ none ∧
    (bookedRows (bookedStore n) 1).length = n ∧
    ∀ r ∈ seatRows (bookedStore n), 1 ≤ r.seat_no ∧ r.seat_no ≤ (n : Int) := by
  induction n with
  | zero => decide
  | succ n ih =>
    obtain ⟨hfk, hsome, hlen, hrows⟩ := ih (by omega)
    obtain ⟨t, ht⟩ := Option.ne_none_iff_exists'.mp hsome
    have hd : bookedRowsOf (bookedStore n) 1 ((n : Int) + 1) = [] := by
      unfold bookedRowsOf
      rw [List.filter_eq_nil_iff]
      intro r hr
      have := (hrows r hr).2
      have hne : r.seat_no ≠ (n : Int) + 1 := by omega
      simp [hne]
    have hb := bookSeat_success ht 1 ((n : Int) + 1) (by omega) hd (by omega)
      (foreignKeyCheck_none (Or.inl hfk))
    rw [bookedStore_succ, hb]
    refine ⟨hfk, by simp, ?_, ?_⟩
    · have hl : (t.rows.filter (fun r => decide (r.flight_id = 1) && r.booked)).length = n := by
        rw [← bookedRows_some ht]; exact hlen
      simp [bookedRows, seatRows, List.filter_append, hl]
    · intro r hr
      simp only [seatRows, List.mem_append, List.mem_singleton] at hr
      rcases hr with hr | hr
      · have := hrows r (by simpa [seatRows, ht] using hr)
        push_cast; omega
      · subst hr; push_cast; omega

theorem bookedRowsOf_bookedStore (n : Nat) (hn : n ≤ 500) (f s : Int)
    (hs : s < 1 ∨ (n : Int) < s) : bookedRowsOf (bookedStore n) f s = [] := by
  unfold bookedRowsOf
  rw [List.filter_eq_nil_iff]
  intro r hr
  have := (bookedStore_rows n hn).2.2.2 r hr
  have hne : r.seat_no ≠ s := by omega
  simp [hne]

/-! ## Booking a free seat (C1) -/

/-- C1, as amended: on a store reachable from the empty store whose seats table
(created by `createSeatsTable`) has no booked row for the (flight, seat) pair,
booking that seat returns no error when the seat number is at most 500, the
flight has fewer than 500 booked rows and, if the connection enforces foreign
keys, the flight exists; a status check of that seat on the resulting store
then returns `(true, nil)`. -/
theorem bookSeat_then_check (db : Store) (f s : Int) (hreach : Reachable db)
    (hseats : db.seats ≠ none)
    (hfree : bookedRowsOf db f s = [])
    (hcap : (bookedRows db f).length < 500)
    (hseat : s ≤ 500)
    (hfk : db.foreignKeys = false ∨ ∃ r ∈ flightRows db, r.id = f) :
    (bookSeat db f s).2 = none ∧
    checkSeatStatus (bookSeat db f s).1 f s = (true, none) := by
  obtain ⟨t, ht⟩ := Option.ne_none_iff_exists'.mp hseats
  have hall := reachable_seatRows (reachable_step hreach (.bookSeat f s))
  simp only [Op.run] at hall
  rw [bookSeat_success ht f s hcap hfree hseat (foreignKeyCheck_none hfk)] at hall ⊢
  refine ⟨rfl, checkSeatStatus_booked rfl f s ?_ ?_⟩
  · intro r hr
    exact (hall r (by simpa [seatRows] using hr)).1
  · exact ⟨⟨nextRowid (t.rows.map (fun r => r.id)) t.seq, f, s, true⟩, by simp, rfl, rfl⟩

/-- Witness for C1: seat 3 of flight 1 on the demo store. -/
theorem bookSeat_then_check_witness :
    Reachable (demoStore false) ∧ (bookSeat (demoStore false) 1 3).2 = none ∧
    checkSeatStatus (bookSeat (demoStore false) 1 3).1 1 3 = (true, none) :=
  ⟨⟨false, setupOps, rfl⟩,
    bookSeat_then_check (demoStore false) 1 3 ⟨false, setupOps, rfl⟩ (by decide) (by decide)
      (by decide) (by decide) (Or.inl rfl)⟩

/-- C1 as stated fails: on a reachable store with both tables, a seat without a
booked row is refused when its number is above 500 (check constraint), when the
flight already has 500 booked rows (capacity error), and when the connection
enforces foreign keys and the flight does not exist. -/
theorem bookSeat_unbooked_refused :
    (Reachable (demoStore false) ∧ bookedRowsOf (demoStore false) 1 501 = [] ∧
      (bookSeat (demoStore false) 1 501).2 = some (.sql .checkFailed)) ∧
    (Reachable (bookedStore 500) ∧ bookedRowsOf (bookedStore 500) 1 0 = [] ∧
      (bookSeat (bookedStore 500) 1 0).2 = some (.text "seat limit reached for this flight")) ∧
    (Reachable (demoStore true) ∧ bookedRowsOf (demoStore true) 7 3 = [] ∧
      (bookSeat (demoStore true) 7 3).2 = some (.sql .foreignKeyFailed)) := by
  refine ⟨⟨⟨false, setupOps, rfl⟩, by decide, by decide⟩, ⟨bookedStore_reachable 500, ?_, ?_⟩,
    ⟨⟨true, setupOps, rfl⟩, by decide, by decide⟩⟩
  · exact bookedRowsOf_bookedStore 500 (by omega) 1 0 (Or.inl (by omega))
  · obtain ⟨_, hsome, hlen, _⟩ := bookedStore_rows 500 (by omega)
    obtain ⟨t, ht⟩ := Option.ne_none_iff_exists'.mp hsome
    rw [bookSeat_some ht, if_pos (by omega)]

/-! ## Booking the same seat twice (C2) -/

/-- C2, as amended: when `bookSeat` is called twice in a row with the same
arguments, the first call returns no error or the duplicate-booking error, and
the flight has fewer than 500 booked rows after the first call, the second call
fails with the duplicate-booking error "seat <seatNo> is already booked". -/
theorem bookSeat_twice_duplicate (db : Store) (f s : Int)
    (hfirst : (bookSeat db f s).2 = none ∨
      (bookSeat db f s).2 = some (.text ("seat " ++ toString s ++ " is already booked")))
    (hcap : (bookedRows (bookSeat db f s).1 f).length < 500) :
    (bookSeat (bookSeat db f s).1 f s).2 =
      some (.text ("seat " ++ toString s ++ " is already booked")) := by
  rcases bookSeat_outcome db f s with ⟨e, he⟩ | ⟨t, id, ht, _, _, _, _, hb⟩
  · rw [he] at hfirst
    rcases hfirst with h | h
    · simp at h
    · simp only [Option.some.injEq] at h
      rw [he, he, h]
  · rw [hb] at hcap ⊢
    simp only at hcap ⊢
    rw [bookSeat_some rfl, if_neg (by omega), if_pos]
    simp [bookedRowsOf, seatRows, List.filter_append]

/-- Witness for C2: seat 3 of flight 1 booked twice on the demo store. -/
theorem bookSeat_twice_duplicate_witness :
    (bookSeat (demoStore false) 1 3).2 = none ∧
    (bookedRows (bookSeat (demoStore false) 1 3).1 1).length < 500 ∧
    (bookSeat (bookSeat (demoStore false) 1 3).1 1 3).2 =
      some (.text "seat 3 is already booked") :=
  ⟨by decide, by decide,
    bookSeat_twice_duplicate (demoStore false) 1 3 (Or.inl (by decide)) (by decide)⟩

/-- C2 as stated fails: the second of two equal calls fails with the check
constraint error when the seat number is above 500 (as the first call did), and
with the capacity error when the first call booked the 500th seat of the
flight. -/
theorem bookSeat_twice_other_error :
    (Reachable (demoStore false) ∧
      (bookSeat (bookSeat (demoStore false) 1 501).1 1 501).2 = some (.sql .checkFailed)) ∧
    (Reachable (bookedStore 499) ∧ (bookSeat (bookedStore 499) 1 500).2 = none ∧
      (bookSeat (bookSeat (bookedStore 499) 1 500).1 1 500).2 =
        some (.text "seat limit reached for this flight")) := by
  refine ⟨⟨⟨false, setupOps, rfl⟩, by decide⟩, bookedStore_reachable 499, ?_⟩
  have hs : bookedStore (499 + 1) = (bookSeat (bookedStore 499) 1 ((499 : Nat) + 1)).1 :=
    bookedStore_succ 499
  have h500 : (bookSeat (bookedStore 499) 1 500).1 = bookedStore 500 := by
    rw [hs]; norm_num
  obtain ⟨hfk, hsome, hlen, _⟩ := bookedStore_rows 499 (by omega)
  obtain ⟨t, ht⟩ := Option.ne_none_iff_exists'.mp hsome
  constructor
  · rw [bookSeat_success ht 1 500 (by omega)
      (bookedRowsOf_bookedStore 499 (by omega) 1 500 (Or.inr (by norm_num))) (by omega)
      (foreignKeyCheck_none (Or.inl hfk))]
  · rw [h500]
    obtain ⟨_, hsome2, hlen2, _⟩ := bookedStore_rows 500 (by omega)
    obtain ⟨t2, ht2⟩ := Option.ne_none_iff_exists'.mp hsome2
    rw [bookSeat_some ht2, if_pos (by omega)]

/-! ## Capacity (C3) -/

/-- C3: on a store in which a flight has 500 or more booked seat rows, booking
a seat that has no booked row on that flight fails with the capacity error and
changes nothing. -/
theorem bookSeat_full_flight (db : Store) (f s : Int)
    (hfull : 500 ≤ (bookedRows db f).length) (_hfree : bookedRowsOf db f s = []) :
    bookSeat db f s = (db, some (.text "seat limit reached for this flight")) := by
  cases h : db.seats with
  | none => simp [bookedRows, seatRows, h] at hfull
  | some t => rw [bookSeat_some h, if_pos hfull]

/-- Witness for C3: seat 501 on the flight whose seats 1 to 500 are booked. -/
theorem bookSeat_full_flight_witness :
    bookSeat (bookedStore 500) 1 501 =
      (bookedStore 500, some (.text "seat limit reached for this flight")) :=
  bookSeat_full_flight (bookedStore 500) 1 501
    (by rw [(bookedStore_rows 500 (by omega)).2.2.1])
    (bookedRowsOf_bookedStore 500 (by omega) 1 501 (Or.inr (by norm_num)))

/-! ## The booking invariant (C4) -/

/-- C4: at most 500 booked rows per flight and at most one booked row per
(flight, seat) pair holds on the empty store, is preserved by every call of
`createFlightsTable`, `createSeatsTable`, `createFlight` and `bookSeat`, and so
holds on every store reachable from the empty store. -/
theorem seat_invariant_reachable :
    (∀ fk, SeatInvariant (emptyStore fk)) ∧
    (∀ db op, SeatInvariant db → SeatInvariant (Op.run db op).1) ∧
    (∀ db, Reachable db →
      (∀ f : Int, (bookedRows db f).length ≤ 500) ∧
      (∀ f s : Int, (bookedRowsOf db f s).length ≤ 1)) :=
  ⟨seatInvariant_empty, seatInvariant_step,
    reachable_induction (P := SeatInvariant) seatInvariant_empty seatInvariant_step⟩

/-! ## Flight upsert (C5) -/

/-- On rows with pairwise distinct ids, the update by the id of a row changes
that row only. -/
theorem updatedRows_eq {rows : List FlightRow} (hok : FlightsOk rows) {r : FlightRow}
    (hr : r ∈ rows) (b c : String) :
    updatedRows rows b c r.id =
      rows.map (fun x => if x = r then ⟨r.id, r.flight_no, b, c⟩ else x) := by
  unfold updatedRows
  apply List.map_congr_left
  intro x hx
  by_cases hid : x.id = r.id
  · have : x = r := List.inj_on_of_nodup_map hok.2.1 hx hr hid
    subst this; simp
  · have : x ≠ r := by intro h; exact hid (by rw [h])
    simp [hid, this]

theorem flights_some_of_mem {db : Store} {r : FlightRow} (hr : r ∈ flightRows db) :
    ∃ t, db.flights = some t ∧ flightRows db = t.rows := by
  cases h : db.flights with
  | none => simp [flightRows, h] at hr
  | some t => exact ⟨t, rfl, by simp [flightRows, h]⟩

/-- C5, as amended: on a store reachable from the empty store, `createFlight`
returns no error and leaves the seats table alone in each of these cases, and
* when the flights table exists (created by `createFlightsTable`) and has no
  row with the flight number, it appends exactly one row carrying the flight
  number, departure and destination of the call;
* when a row holds the flight number, that row keeps its id and flight number
  and takes the departure and destination of the call, every other row is
  unchanged, and so is the number of rows;
* two calls with one flight number on a store whose flights table exists and
  has no row with it leave exactly one row with that flight number, holding the
  departure and destination of the second call. -/
theorem createFlight_upsert (db : Store) (flight : Flight) (hreach : Reachable db) :
    (∀ t, db.flights = some t → (∀ r ∈ t.rows, r.flight_no ≠ flight.FlightNo) →
      (createFlight db flight).2 = none ∧
      (createFlight db flight).1.seats = db.seats ∧
      ∃ id, flightRows (createFlight db flight).1 =
        flightRows db ++ [⟨id, flight.FlightNo, flight.Departure, flight.Destination⟩]) ∧
    (∀ r ∈ flightRows db, r.flight_no = flight.FlightNo →
      (createFlight db flight).2 = none ∧
      (createFlight db flight).1.seats = db.seats ∧
      flightRows (createFlight db flight).1 =
        (flightRows db).map (fun x =>
          if x = r then ⟨r.id, r.flight_no, flight.Departure, flight.Destination⟩ else x) ∧
      (flightRows (createFlight db flight).1).length = (flightRows db).length) ∧
    (∀ t, db.flights = some t → (∀ r ∈ t.rows, r.flight_no ≠ flight.FlightNo) →
      ∀ flight2 : Flight, flight2.FlightNo = flight.FlightNo →
        (createFlight db flight).2 = none ∧
        (createFlight (createFlight db flight).1 flight2).2 = none ∧
        ∃ id, flightRowsOf (createFlight (createFlight db flight).1 flight2).1 flight.FlightNo =
          [⟨id, flight.FlightNo, flight2.Departure, flight2.Destination⟩]) := by
  have hok := reachable_flightsOk hreach
  refine ⟨?_, ?_, ?_⟩
  · intro t ht hnew
    have hok2 : FlightsOk t.rows := by simpa [flightRows, ht] using hok
    obtain ⟨herr, hseats, hins, _⟩ := createFlight_rows ht hok2 flight
    refine ⟨herr, hseats, nextRowid (t.rows.map (fun r => r.id)) t.seq, ?_⟩
    rw [hins hnew]
    simp [flightRows, ht]
  · intro r hr hno
    obtain ⟨t, ht, hrows⟩ := flights_some_of_mem hr
    rw [hrows] at hr hok ⊢
    obtain ⟨herr, hseats, _, hupd⟩ := createFlight_rows ht hok flight
    refine ⟨herr, hseats, ?_, ?_⟩
    · rw [hupd r hr hno, updatedRows_eq hok hr]
    · rw [hupd r hr hno, updatedRows, List.length_map]
  · intro t ht hnew flight2 hno2
    have hok2 : FlightsOk t.rows := by simpa [flightRows, ht] using hok
    obtain ⟨herr, _, hins, _⟩ := createFlight_rows ht hok2 flight
    have hrows1 := hins hnew
    have hreach1 : Reachable (createFlight db flight).1 := reachable_step hreach (.createFlight flight)
    have hok1 := reachable_flightsOk hreach1
    have hmem : (⟨nextRowid (t.rows.map (fun r => r.id)) t.seq, flight.FlightNo,
        flight.Departure, flight.Destination⟩ : FlightRow) ∈
        flightRows (createFlight db flight).1 := by
      rw [hrows1]; simp
    obtain ⟨t1, ht1, hrows⟩ := flights_some_of_mem hmem
    rw [hrows] at hmem hok1 hrows1
    obtain ⟨herr2, _, _, hupd⟩ := createFlight_rows ht1 hok1 flight2
    refine ⟨herr, herr2, nextRowid (t.rows.map (fun r => r.id)) t.seq, ?_⟩
    unfold flightRowsOf
    rw [hupd _ hmem hno2.symm, updatedRows, hrows1, List.map_append, List.filter_append]
    have hnil : (t.rows.map (fun r : FlightRow =>
        if r.id = nextRowid (t.rows.map (fun r => r.id)) t.seq then
          { r with departure := flight2.Departure, destination := flight2.Destination }
        else r)).filter (fun r => decide (r.flight_no = flight.FlightNo)) = [] := by
      rw [List.filter_eq_nil_iff]
      intro x hx
      obtain ⟨r0, hr0, he⟩ := List.mem_map.mp hx
      have h0 := hnew r0 hr0
      by_cases hid : r0.id = nextRowid (t.rows.map (fun r => r.id)) t.seq
      · rw [if_pos hid] at he; subst he; simpa using h0
      · rw [if_neg hid] at he; subst he; simpa using h0
    rw [hnil]
    simp

/-- Witness for C5: the demo flight upserted on the store with both tables,
then upserted again with another route. -/
theorem createFlight_upsert_witness :
    Reachable (runOps (emptyStore false) [.createFlightsTable, .createSeatsTable]) ∧
    ∃ id, flightRowsOf
      (createFlight
        (createFlight (runOps (emptyStore false) [.createFlightsTable, .createSeatsTable])
          demoFlight).1
        ⟨0, "ABC123", "Boston", "Chicago"⟩).1 "ABC123" =
      [⟨id, "ABC123", "Boston", "Chicago"⟩] :=
  ⟨⟨false, _, rfl⟩,
    ((createFlight_upsert (runOps (emptyStore false) [.createFlightsTable, .createSeatsTable])
      demoFlight ⟨false, _, rfl⟩).2.2 ⟨[], 0⟩ rfl (by simp)
      ⟨0, "ABC123", "Boston", "Chicago"⟩ rfl).2.2⟩

/-- C5 as stated fails: the empty store is reachable and no row has flight
number "ABC123", yet `createFlight` adds no row there: without the flights
table it returns the storage error and the store it was given, and a second
call does the same, so no row holds the flight number afterwards. -/
theorem createFlight_without_table :
    Reachable (emptyStore false) ∧
    flightRowsOf (emptyStore false) "ABC123" = [] ∧
    createFlight (emptyStore false) ⟨0, "ABC123", "New York", "Los Angeles"⟩ =
      (emptyStore false, some (.sql (.noSuchTable "flights"))) ∧
    flightRows (createFlight (emptyStore false) ⟨0, "ABC123", "New York", "Los Angeles"⟩).1 =
      [] ∧
    flightRowsOf
      (createFlight
        (createFlight (emptyStore false) ⟨0, "ABC123", "New York", "Los Angeles"⟩).1
        ⟨0, "ABC123", "Boston", "Chicago"⟩).1 "ABC123" = [] :=
  ⟨⟨false, [], rfl⟩, by decide, by decide, by decide, by decide⟩

/-! ## Status of a seat without a row (C6) -/

/-- C6: on every store, `checkSeatStatus` returns `false` with the error
"seat <seatNo> is not available" exactly when the seats table has no row for
the (flight, seat) pair. -/
theorem checkSeatStatus_not_available_iff (db : Store) (f s : Int) :
    checkSeatStatus db f s =
        (false, some (.text ("seat " ++ toString s ++ " is not available"))) ↔
      ∃ t, db.seats = some t ∧ ∀ r ∈ t.rows, ¬ (r.flight_id = f ∧ r.seat_no = s) := by
  cases h : db.seats with
  | none => rw [checkSeatStatus_none h]; simp
  | some t =>
    rw [checkSeatStatus_some h]
    cases hf : t.rows.find? (fun r => decide (r.flight_id = f) && decide (r.seat_no = s)) with
    | none =>
      have hn := List.find?_eq_none.mp hf
      simp only [true_iff]
      exact ⟨t, rfl, fun r hr => by simpa using hn r hr⟩
    | some r =>
      have hr := List.mem_of_find?_eq_some hf
      have hp := List.find?_some hf
      simp only [Prod.mk.injEq, reduceCtorEq, and_false, false_iff]
      rintro ⟨t2, ht2, hnone⟩
      simp only [Option.some.injEq] at ht2
      subst ht2
      exact hnone r hr (by simpa using hp)

/-! ## Seat numbers (C7) -/

/-- C7, as amended: every seat row of a store reachable from the empty store
has a seat number of at most 500, and on every store `bookSeat` with a seat
number above 500 returns an error and adds no row. -/
theorem seat_numbers_at_most_500 :
    (∀ db, Reachable db → ∀ r ∈ seatRows db, r.seat_no ≤ 500) ∧
    (∀ (db : Store) (f s : Int), 500 < s →
      (bookSeat db f s).2 ≠ none ∧ (bookSeat db f s).1 = db) := by
  refine ⟨fun db h r hr => (reachable_seatRows h r hr).2, ?_⟩
  intro db f s hs
  rcases bookSeat_outcome db f s with ⟨e, he⟩ | ⟨t, id, _, _, _, hle, _, _⟩
  · rw [he]; simp
  · omega

/-- C7 as stated fails: `bookSeat` accepts seat number 0, which is below 1, and
the reachable store then holds a seat row with seat number 0. -/
theorem seat_number_zero_booked :
    Reachable (bookSeat (demoStore false) 1 0).1 ∧
    (bookSeat (demoStore false) 1 0).2 = none ∧
    seatRows (demoStore false) = [] ∧
    seatRows (bookSeat (demoStore false) 1 0).1 = [⟨1, 1, 0, true⟩] :=
  ⟨reachable_step ⟨false, setupOps, rfl⟩ (Op.bookSeat 1 0), by decide, by decide, by decide⟩

/-! ## The demo sequence of `main` (C8) -/

/-- C8: from the empty store, `createFlightsTable` and `createSeatsTable`
succeed, `createFlight` of "ABC123" / "New York" / "Los Angeles" succeeds and
the flight row gets id 1, `bookSeat(1, 3)` succeeds adding one row, then
`checkSeatStatus(1, 1)` fails with "seat 1 is not available" and
`checkSeatStatus(1, 3)` returns `(true, nil)`. -/
theorem demo_end_to_end (fk : Bool) :
    ∃ db1 db2 db3 db4 : Store,
      createFlightsTable (emptyStore fk) = (db1, none) ∧
      createSeatsTable db1 = (db2, none) ∧
      createFlight db2 ⟨0, "ABC123", "New York", "Los Angeles"⟩ = (db3, none) ∧
      flightRows db3 = [⟨1, "ABC123", "New York", "Los Angeles"⟩] ∧
      bookSeat db3 1 3 = (db4, none) ∧
      seatRows db4 = [⟨1, 1, 3, true⟩] ∧
      checkSeatStatus db4 1 1 = (false, some (.text "seat 1 is not available")) ∧
      checkSeatStatus db4 1 3 = (true, none) := by
  cases fk <;>
    exact ⟨_, _, _, _, rfl, rfl, rfl, by decide, rfl, by decide, by decide, by decide⟩

/-! ## Booked flags (C9) -/

/-- C9: every seat row of a store reachable from the empty store has its booked
flag set, and a `checkSeatStatus` that returns no error on such a store returns
`true`. -/
theorem seat_rows_booked (db : Store) (hreach : Reachable db) :
    (∀ r ∈ seatRows db, r.booked = true) ∧
    (∀ (f s : Int) (b : Bool), checkSeatStatus db f s = (b, none) → b = true) := by
  have hall := reachable_seatRows hreach
  refine ⟨fun r hr => (hall r hr).1, ?_⟩
  intro f s b hb
  cases h : db.seats with
  | none => rw [checkSeatStatus_none h] at hb; simp at hb
  | some t =>
    rw [checkSeatStatus_some h] at hb
    cases hf : t.rows.find? (fun r => decide (r.flight_id = f) && decide (r.seat_no = s)) with
    | none => rw [hf] at hb; simp at hb
    | some r =>
      rw [hf] at hb
      simp only [Prod.mk.injEq, and_true] at hb
      rw [← hb]
      exact (hall r (by simpa [seatRows, h] using List.mem_of_find?_eq_some hf)).1

/-- Witness for C9: the demo store after seats 1 to 3 of flight 1 were booked. -/
theorem seat_rows_booked_witness :
    Reachable (bookedStore 3) ∧
    (∀ r ∈ seatRows (bookedStore 3), r.booked = true) ∧
    (∀ (f s : Int) (b : Bool), checkSeatStatus (bookedStore 3) f s = (b, none) → b = true) :=
  ⟨bookedStore_reachable 3, seat_rows_booked (bookedStore 3) (bookedStore_reachable 3)⟩

/-! ## Frame of a booking (C10) -/

/-- C10: on every store `bookSeat` leaves the flights table unchanged; when it
returns no error the seat rows are the old ones followed by exactly one new
booked row for the (flight, seat) pair of the call; when it returns an error
the store is exactly as it was. -/
theorem bookSeat_frame (db : Store) (f s : Int) :
    (bookSeat db f s).1.flights = db.flights ∧
    ((bookSeat db f s).2 = none →
      ∃ id, seatRows (bookSeat db f s).1 = seatRows db ++ [⟨id, f, s, true⟩]) ∧
    ((bookSeat db f s).2 ≠ none → (bookSeat db f s).1 = db) := by
  refine ⟨(bookSeat_flights db f s).1, ?_, ?_⟩
  · intro hnone
    rcases bookSeat_outcome db f s with ⟨e, he⟩ | ⟨t, id, ht, _, _, _, _, hb⟩
    · rw [he] at hnone; simp at hnone
    · exact ⟨id, by rw [hb]; simp [seatRows, ht]⟩
  · intro herr
    rcases bookSeat_outcome db f s with ⟨e, he⟩ | ⟨t, id, ht, _, _, _, _, hb⟩
    · rw [he]
    · rw [hb] at herr; simp at herr

end FlightBooking
